import Mathlib

/-!
Verification of the Financial-calculator option-pricing engine.

Shallow embedding of `src/Options/options.cpp` and the declarations in the
header (`src/Options/main.cpp` bundle): C++ `double` arithmetic is modelled
by real arithmetic, the thrown exceptions of `calculateGreeks` by
`Except String`, and the Monte Carlo evaluator's pseudo-random uniform
source by an explicit stream `ℕ → ℝ` of successive draws.  The source's
`MATH_PI` literal (the closest double to π) is modelled by `Real.pi`.
-/

open Real MeasureTheory

/-- Option side, from `enum class OptionType { Call, Put }`. -/
inductive OptionType where
  | Call
  | Put
deriving DecidableEq

/-- Greek selector, from `enum class Greeks { Delta, Gamma, Theta, Vega, Rho }`. -/
inductive Greeks where
  | Delta
  | Gamma
  | Theta
  | Vega
  | Rho
deriving DecidableEq

/-- Source `struct BlackScholesParams`, field for field. -/
structure BlackScholesParams where
  interest_rate : ℝ
  underlying_price : ℝ
  strike_price : ℝ
  time : ℝ
  volatility : ℝ
  option_type : OptionType
  paid_price : ℝ

/-- Source `struct GreeksParams`, field for field. -/
structure GreeksParams where
  interest_rate : ℝ
  underlying_price : ℝ
  strike_price : ℝ
  time : ℝ
  volatility : ℝ
  option_type : OptionType
  paid_price : ℝ
  dividend_yield : ℝ

/-- Source `struct MonteCarloParams`, field for field (`number_of_simulations` is a
`std::size_t`, modelled as `ℕ`). -/
structure MonteCarloParams where
  number_of_simulations : ℕ
  interest_rate : ℝ
  underlying_price : ℝ
  strike_price : ℝ
  time : ℝ
  volatility : ℝ
  option_type : OptionType
  paid_price : ℝ

/-- The complementary error function `erfc z = (2/√π) ∫_z^∞ e^(−t²) dt`,
the mathematical function computed by `std::erfc`. -/
noncomputable def erfc (x : ℝ) : ℝ :=
  (2 / Real.sqrt π) * ∫ t in Set.Ioi x, Real.exp (-t ^ 2)

/-- Function `normalCdf` from `options.cpp`: `0.5 * std::erfc(-x / std::sqrt(2.0))`. -/
noncomputable def normalCdf (x : ℝ) : ℝ :=
  0.5 * erfc (-x / Real.sqrt 2)

/-- Function `normalPdf` from `options.cpp`:
`(1.0 / std::sqrt(2.0 * MATH_PI)) * std::exp(-0.5 * x * x)`. -/
noncomputable def normalPdf (x : ℝ) : ℝ :=
  (1 / Real.sqrt (2 * π)) * Real.exp (-0.5 * x * x)

/-- Source `FinancialCalculator::calculateBlackScholes` from `options.cpp`.  The
`default:` throw for an out-of-range `option_type` is unreachable over the
closed two-variant type and is dropped; the function is total. -/
noncomputable def calculateBlackScholes (params : BlackScholesParams) : ℝ :=
  let d1 := (Real.log (params.underlying_price / params.strike_price) +
      (params.interest_rate + params.volatility * params.volatility / 2) * params.time) /
      (params.volatility * Real.sqrt params.time)
  let d2 := d1 - params.volatility * Real.sqrt params.time
  match params.option_type with
  | OptionType.Call =>
      params.underlying_price * normalCdf d1 -
        params.strike_price * Real.exp (-params.interest_rate * params.time) * normalCdf d2
  | OptionType.Put =>
      params.strike_price * Real.exp (-params.interest_rate * params.time) * normalCdf (-d2) -
        params.underlying_price * normalCdf (-d1)

/-- The Gaussian integral over a left ray equals the one over the reflected
right ray. -/
theorem gauss_Ioi_neg (y : ℝ) :
    (∫ t in Set.Ioi (-y), Real.exp (-t ^ 2)) = ∫ t in Set.Iic y, Real.exp (-t ^ 2) := by
  rw [← integral_comp_neg_Iic y fun t => Real.exp (-t ^ 2)]
  simp [neg_sq]

/-- The two tails of the Gaussian integral at `y` and `−y` sum to `√π`. -/
theorem gauss_tails (y : ℝ) :
    (∫ t in Set.Ioi (-y), Real.exp (-t ^ 2)) + (∫ t in Set.Ioi y, Real.exp (-t ^ 2)) =
      Real.sqrt π := by
  rw [gauss_Ioi_neg]
  have hint : Integrable (fun t : ℝ => Real.exp (-t ^ 2)) := by
    have := integrable_exp_neg_mul_sq (b := 1) one_pos
    simpa using this
  rw [intervalIntegral.integral_Iic_add_Ioi hint.integrableOn hint.integrableOn]
  have := integral_gaussian 1
  simpa using this

/-- The identity `Φ(x) + Φ(−x) = 1` for the source's `normalCdf`. -/
theorem normalCdf_add_neg (x : ℝ) : normalCdf x + normalCdf (-x) = 1 := by
  have hπ : Real.sqrt π ≠ 0 := by
    positivity
  have h := gauss_tails (x / Real.sqrt 2)
  unfold normalCdf erfc
  have e1 : -x / Real.sqrt 2 = -(x / Real.sqrt 2) := neg_div _ _
  have e2 : -(-x) / Real.sqrt 2 = x / Real.sqrt 2 := by rw [neg_neg]
  rw [e1, e2]
  set I1 := ∫ t in Set.Ioi (-(x / Real.sqrt 2)), Real.exp (-t ^ 2) with hI1
  set I2 := ∫ t in Set.Ioi (x / Real.sqrt 2), Real.exp (-t ^ 2) with hI2
  field_simp
  linarith

/-- Source `FinancialCalculator::calculateGreeks` from `options.cpp`.  The two
`throw std::runtime_error` validations are modelled by `Except.error`; the
`default:` throw for an out-of-range selector is unreachable over the closed
five-variant type and is dropped. -/
noncomputable def calculateGreeks (params : GreeksParams) (greek : Greeks) :
    Except String ℝ :=
  if params.time ≤ 0 then Except.error "[!] Time must be positive"
  else if params.volatility ≤ 0 then Except.error "[!] Volatility must be positive"
  else
    let d1 := (Real.log (params.underlying_price / params.strike_price) +
        (params.interest_rate + params.volatility * params.volatility / 2) * params.time) /
        (params.volatility * Real.sqrt params.time)
    let d2 := d1 - params.volatility * Real.sqrt params.time
    let discount := Real.exp (-params.interest_rate * params.time)
    let dividend_discount := Real.exp (-params.dividend_yield * params.time)
    Except.ok (match greek with
      | Greeks.Delta =>
          match params.option_type with
          | OptionType.Call => dividend_discount * normalCdf d1
          | OptionType.Put => dividend_discount * (normalCdf d1 - 1)
      | Greeks.Gamma =>
          dividend_discount * normalPdf d1 /
            (params.underlying_price * params.volatility * Real.sqrt params.time)
      | Greeks.Theta =>
          let theta_part1 := -(params.underlying_price * params.volatility *
              dividend_discount * normalPdf d1) / (2 * Real.sqrt params.time)
          let theta_part2 :=
            match params.option_type with
            | OptionType.Call =>
                -params.interest_rate * params.strike_price * discount * normalCdf d2 +
                  params.dividend_yield * params.underlying_price * dividend_discount *
                    normalCdf d1
            | OptionType.Put =>
                params.interest_rate * params.strike_price * discount * normalCdf (-d2) -
                  params.dividend_yield * params.underlying_price * dividend_discount *
                    normalCdf (-d1)
          theta_part1 + theta_part2
      | Greeks.Vega =>
          params.underlying_price * dividend_discount * normalPdf d1 * Real.sqrt params.time
      | Greeks.Rho =>
          match params.option_type with
          | OptionType.Call =>
              params.strike_price * params.time * discount * normalCdf d2
          | OptionType.Put =>
              -params.strike_price * params.time * discount * normalCdf (-d2))

/-- The Black-Scholes result exactly as the spec words it (§4.3), for
comparison with `calculateBlackScholes`. -/
noncomputable def blackScholesSpecFormula (params : BlackScholesParams) : ℝ :=
  let S := params.underlying_price
  let K := params.strike_price
  let T := params.time
  let r := params.interest_rate
  let σ := params.volatility
  let d1 := (Real.log (S / K) + (r + σ ^ 2 / 2) * T) / (σ * Real.sqrt T)
  let d2 := d1 - σ * Real.sqrt T
  match params.option_type with
  | OptionType.Call => S * normalCdf d1 - K * Real.exp (-(r * T)) * normalCdf d2
  | OptionType.Put => K * Real.exp (-(r * T)) * normalCdf (-d2) - S * normalCdf (-d1)

/-- The Greeks results exactly as the spec words them (§4.4), for comparison
with `calculateGreeks`. -/
noncomputable def greeksSpecFormula (params : GreeksParams) (greek : Greeks) : ℝ :=
  let S := params.underlying_price
  let K := params.strike_price
  let T := params.time
  let r := params.interest_rate
  let σ := params.volatility
  let q := params.dividend_yield
  let d1 := (Real.log (S / K) + (r + σ ^ 2 / 2) * T) / (σ * Real.sqrt T)
  let d2 := d1 - σ * Real.sqrt T
  let discount := Real.exp (-(r * T))
  let dividend_discount := Real.exp (-(q * T))
  match greek with
  | Greeks.Delta =>
      match params.option_type with
      | OptionType.Call => dividend_discount * normalCdf d1
      | OptionType.Put => dividend_discount * (normalCdf d1 - 1)
  | Greeks.Gamma => dividend_discount * normalPdf d1 / (S * σ * Real.sqrt T)
  | Greeks.Theta =>
      let theta_part1 := -(S * σ * dividend_discount * normalPdf d1) / (2 * Real.sqrt T)
      let theta_part2 :=
        match params.option_type with
        | OptionType.Call =>
            -(r * K * discount * normalCdf d2) + q * S * dividend_discount * normalCdf d1
        | OptionType.Put =>
            r * K * discount * normalCdf (-d2) - q * S * dividend_discount * normalCdf (-d1)
      theta_part1 + theta_part2
  | Greeks.Vega => S * dividend_discount * normalPdf d1 * Real.sqrt T
  | Greeks.Rho =>
      match params.option_type with
      | OptionType.Call => K * T * discount * normalCdf d2
      | OptionType.Put => -(K * T * discount * normalCdf (-d2))

/-- C1: `calculateBlackScholes` returns `S·Φ(d1) − K·e^(−rT)·Φ(d2)` for a
Call and `K·e^(−rT)·Φ(−d2) − S·Φ(−d1)` for a Put, with the spec's `d1`, `d2`,
and with `Φ(x) = 0.5·erfc(−x/√2)`. -/
theorem calculateBlackScholes_eq_spec (params : BlackScholesParams) :
    calculateBlackScholes params = blackScholesSpecFormula params ∧
      ∀ x, normalCdf x = 0.5 * erfc (-x / Real.sqrt 2) := by
  refine ⟨?_, fun x => rfl⟩
  unfold calculateBlackScholes blackScholesSpecFormula
  cases params.option_type <;> ring_nf

/-- C2: put-call parity.  For identical `S, K, T, r, σ` with `S, K, T, σ > 0`,
the Black-Scholes Call price minus the Put price equals `S − K·e^(−rT)`,
exactly under real arithmetic. -/
theorem blackScholes_put_call_parity (params : BlackScholesParams)
    (hS : 0 < params.underlying_price) (hK : 0 < params.strike_price)
    (hT : 0 < params.time) (hσ : 0 < params.volatility) :
    calculateBlackScholes { params with option_type := OptionType.Call } -
        calculateBlackScholes { params with option_type := OptionType.Put } =
      params.underlying_price -
        params.strike_price * Real.exp (-params.interest_rate * params.time) := by
  obtain ⟨r, S, K, T, σ, ot, pp⟩ := params
  simp only [calculateBlackScholes]
  set d1 := (Real.log (S / K) + (r + σ * σ / 2) * T) / (σ * Real.sqrt T) with hd1
  set d2 := d1 - σ * Real.sqrt T with hd2
  have h1 := normalCdf_add_neg d1
  have h2 := normalCdf_add_neg d2
  linear_combination S * h1 - K * Real.exp (-r * T) * h2

/-- C3: `calculateGreeks` fails with a validation error exactly when
`time ≤ 0` or `volatility ≤ 0`; otherwise it returns a value for every
Greek selector. -/
theorem calculateGreeks_error_iff (params : GreeksParams) (greek : Greeks) :
    (∃ msg, calculateGreeks params greek = Except.error msg) ↔
      params.time ≤ 0 ∨ params.volatility ≤ 0 := by
  by_cases h1 : params.time ≤ 0
  · simp [calculateGreeks, h1]
  · by_cases h2 : params.volatility ≤ 0
    · simp [calculateGreeks, h1, h2]
    · simp [calculateGreeks, h1, h2]

/-- C4: for `time > 0` and `volatility > 0`, `calculateGreeks` returns
exactly the spec's sensitivity formulas (`greeksSpecFormula`) for every
Greek selector and option type. -/
theorem calculateGreeks_eq_spec (params : GreeksParams) (greek : Greeks)
    (ht : 0 < params.time) (hv : 0 < params.volatility) :
    calculateGreeks params greek = Except.ok (greeksSpecFormula params greek) := by
  obtain ⟨r, S, K, T, σ, ot, pp, q⟩ := params
  simp only [calculateGreeks, greeksSpecFormula] at *
  rw [if_neg (not_le.mpr ht), if_neg (not_le.mpr hv)]
  cases greek <;> cases ot <;> exact congrArg Except.ok (by ring_nf)

/-- Witness for C2 at `r=0.05, S=100, K=100, T=1, σ=0.2`. -/
theorem blackScholes_put_call_parity_witness :
    calculateBlackScholes ⟨0.05, 100, 100, 1, 0.2, OptionType.Call, 5⟩ -
        calculateBlackScholes ⟨0.05, 100, 100, 1, 0.2, OptionType.Put, 5⟩ =
      100 - 100 * Real.exp (-(0.05 : ℝ) * 1) :=
  blackScholes_put_call_parity ⟨0.05, 100, 100, 1, 0.2, OptionType.Call, 5⟩
    (by norm_num) (by norm_num) (by norm_num) (by norm_num)

/-- Witness for C4 at `r=0.05, S=100, K=100, T=1, σ=0.2, q=0.01`, Delta. -/
theorem calculateGreeks_eq_spec_witness :
    calculateGreeks ⟨0.05, 100, 100, 1, 0.2, OptionType.Call, 5, 0.01⟩ Greeks.Delta =
      Except.ok
        (greeksSpecFormula ⟨0.05, 100, 100, 1, 0.2, OptionType.Call, 5, 0.01⟩ Greeks.Delta) :=
  calculateGreeks_eq_spec ⟨0.05, 100, 100, 1, 0.2, OptionType.Call, 5, 0.01⟩ Greeks.Delta
    (by norm_num) (by norm_num)

/-- One day of the inner loop of `FinancialCalculator::calculateMonteCarlo`:
the Box-Muller transform of the two draws `u1`, `u2` followed by the
geometric-Brownian-motion update of the running price. -/
noncomputable def mcStepPrice (params : MonteCarloParams) (time_step u1 u2 price : ℝ) : ℝ :=
  let random_normal := Real.sqrt (-2 * Real.log u1) * Real.cos (2 * π * u2)
  let drift := (params.interest_rate - 0.5 * params.volatility ^ 2) * time_step
  let diffusion := params.volatility * Real.sqrt time_step * random_normal
  price * Real.exp (drift + diffusion)

/-- The day loop of `calculateMonteCarlo`: the running price after `d` days,
starting from `params.underlying_price`, consuming draws
`u start, u (start+1), …` two per day from the shared stream. -/
noncomputable def mcDayLoop (params : MonteCarloParams) (u : ℕ → ℝ) (time_step : ℝ)
    (start : ℕ) : ℕ → ℝ
  | 0 => params.underlying_price
  | d + 1 =>
      mcStepPrice params time_step (u (start + 2 * d)) (u (start + 2 * d + 1))
        (mcDayLoop params u time_step start d)

/-- The per-path payoff of `calculateMonteCarlo` (`if`/`else if` over the
closed option type). -/
noncomputable def mcPayoff (params : MonteCarloParams) (price : ℝ) : ℝ :=
  match params.option_type with
  | OptionType.Call => max (price - params.strike_price) 0
  | OptionType.Put => max (params.strike_price - price) 0

/-- The simulation loop of `calculateMonteCarlo`: accumulated total payoff
after `i` simulated paths of `total_days` days each; path `i` consumes the
`2 * total_days` draws starting at index `2 * total_days * i`. -/
noncomputable def mcSimLoop (params : MonteCarloParams) (u : ℕ → ℝ) (time_step : ℝ)
    (total_days : ℕ) : ℕ → ℝ
  | 0 => 0
  | i + 1 =>
      mcSimLoop params u time_step total_days i +
        mcPayoff params (mcDayLoop params u time_step (2 * total_days * i) total_days)

/-- Source `FinancialCalculator::calculateMonteCarlo` from `options.cpp`, over an
explicit stream `u` of the uniform draws the per-call random source would
produce.  `static_cast<std::size_t>(params.time * 365.0)` is `⌊T·365⌋₊`
(truncation and floor agree for the meaningful case `T ≥ 0`). -/
noncomputable def calculateMonteCarlo (params : MonteCarloParams) (u : ℕ → ℝ) : ℝ :=
  let total_days : ℕ := ⌊params.time * 365⌋₊
  let time_step : ℝ := params.time / (total_days : ℝ)
  let total_payoff := mcSimLoop params u time_step total_days params.number_of_simulations
  let average_payoff := total_payoff / (params.number_of_simulations : ℝ)
  let discount_factor := Real.exp (-params.interest_rate * params.time)
  average_payoff * discount_factor

/-- One GBM step exactly as the spec words it (§4.5 step 2b):
`Z = √(−2·ln u1)·cos(2π·u2)`, update by `exp(drift + diffusion)` with
`drift = (r − σ²/2)·time_step` and `diffusion = σ·√time_step·Z`. -/
noncomputable def specGbmStep (r σ time_step u1 u2 price : ℝ) : ℝ :=
  let Z := Real.sqrt (-2 * Real.log u1) * Real.cos (2 * π * u2)
  price * Real.exp ((r - σ ^ 2 / 2) * time_step + σ * Real.sqrt time_step * Z)

/-- A simulated path as the spec words it: reset to `underlying_price`, then
`total_days` GBM steps, two fresh uniform draws per step. -/
noncomputable def specPathPrice (S r σ time_step : ℝ) (u : ℕ → ℝ) (start : ℕ) : ℕ → ℝ
  | 0 => S
  | d + 1 =>
      specGbmStep r σ time_step (u (start + 2 * d)) (u (start + 2 * d + 1))
        (specPathPrice S r σ time_step u start d)

/-- Terminal payoff as the spec words it (§4.5 step 2c):
Call → `max(price − K, 0)`; Put → `max(K − price, 0)`. -/
noncomputable def specTerminalPayoff (option_type : OptionType) (K price : ℝ) : ℝ :=
  match option_type with
  | OptionType.Call => max (price - K) 0
  | OptionType.Put => max (K - price) 0

/-- Accumulated payoff over the spec's independent paths. -/
noncomputable def specTotalPayoff (S K r σ time_step : ℝ) (option_type : OptionType)
    (u : ℕ → ℝ) (total_days : ℕ) : ℕ → ℝ
  | 0 => 0
  | i + 1 =>
      specTotalPayoff S K r σ time_step option_type u total_days i +
        specTerminalPayoff option_type K
          (specPathPrice S r σ time_step u (2 * total_days * i) total_days)

/-- The Monte Carlo algorithm exactly as the spec words it (§4.5):
`total_days = ⌊T·365⌋`, `time_step = T/total_days`, and the discounted mean
terminal payoff `(total_payoff / number_of_simulations)·e^(−r·T)`. -/
noncomputable def monteCarloSpec (params : MonteCarloParams) (u : ℕ → ℝ) : ℝ :=
  let total_days : ℕ := ⌊params.time * 365⌋₊
  let time_step : ℝ := params.time / (total_days : ℝ)
  specTotalPayoff params.underlying_price params.strike_price params.interest_rate
      params.volatility time_step params.option_type u total_days
      params.number_of_simulations / (params.number_of_simulations : ℝ) *
    Real.exp (-(params.interest_rate * params.time))

/-- The code's day update and the spec's GBM step coincide. -/
theorem mcStepPrice_eq_spec (params : MonteCarloParams) (time_step u1 u2 price : ℝ) :
    mcStepPrice params time_step u1 u2 price =
      specGbmStep params.interest_rate params.volatility time_step u1 u2 price := by
  simp only [mcStepPrice, specGbmStep]
  ring_nf

/-- The code's day loop and the spec's path coincide. -/
theorem mcDayLoop_eq_spec (params : MonteCarloParams) (u : ℕ → ℝ) (time_step : ℝ)
    (start : ℕ) (d : ℕ) :
    mcDayLoop params u time_step start d =
      specPathPrice params.underlying_price params.interest_rate params.volatility
        time_step u start d := by
  induction d with
  | zero => rfl
  | succ d ih =>
      simp only [mcDayLoop, specPathPrice, ih, mcStepPrice_eq_spec]

/-- The code's per-path payoff and the spec's terminal payoff coincide. -/
theorem mcPayoff_eq_spec (params : MonteCarloParams) (price : ℝ) :
    mcPayoff params price =
      specTerminalPayoff params.option_type params.strike_price price := rfl

/-- The code's simulation loop and the spec's payoff accumulation coincide. -/
theorem mcSimLoop_eq_spec (params : MonteCarloParams) (u : ℕ → ℝ) (time_step : ℝ)
    (total_days : ℕ) (n : ℕ) :
    mcSimLoop params u time_step total_days n =
      specTotalPayoff params.underlying_price params.strike_price params.interest_rate
        params.volatility time_step params.option_type u total_days n := by
  induction n with
  | zero => rfl
  | succ n ih =>
      simp only [mcSimLoop, specTotalPayoff, ih, mcPayoff_eq_spec, mcDayLoop_eq_spec]

/-- C5: `calculateMonteCarlo` follows the spec's algorithm
(`monteCarloSpec`) exactly, for every parameter bundle and every stream of
uniform draws. -/
theorem calculateMonteCarlo_eq_spec (params : MonteCarloParams) (u : ℕ → ℝ) :
    calculateMonteCarlo params u = monteCarloSpec params u := by
  simp only [calculateMonteCarlo, monteCarloSpec, mcSimLoop_eq_spec, neg_mul]

/-- With zero simulated days every path keeps the initial price, so the
simulation loop accumulates `n` copies of the immediate payoff. -/
theorem mcSimLoop_zero_days (params : MonteCarloParams) (u : ℕ → ℝ) (time_step : ℝ)
    (n : ℕ) :
    mcSimLoop params u time_step 0 n = n * mcPayoff params params.underlying_price := by
  induction n with
  | zero => simp [mcSimLoop]
  | succ n ih =>
      simp only [mcSimLoop, ih, mcDayLoop]
      push_cast
      ring

/-- C9: for `number_of_simulations ≥ 1` and `0 < T·365 < 1` (so
`total_days = 0`), `calculateMonteCarlo` is a well-defined value independent
of the draw stream: the discounted immediate payoff
`max(S−K,0)·e^(−rT)` (Call) or `max(K−S,0)·e^(−rT)` (Put); the divided-by-
zero `time_step` is never consumed because the day loop runs zero times. -/
theorem calculateMonteCarlo_zero_days (params : MonteCarloParams) (u : ℕ → ℝ)
    (hn : 1 ≤ params.number_of_simulations) (h0 : 0 < params.time * 365)
    (h1 : params.time * 365 < 1) :
    calculateMonteCarlo params u =
      (match params.option_type with
        | OptionType.Call => max (params.underlying_price - params.strike_price) 0
        | OptionType.Put => max (params.strike_price - params.underlying_price) 0) *
        Real.exp (-params.interest_rate * params.time) := by
  have hdays : ⌊params.time * 365⌋₊ = 0 := Nat.floor_eq_zero.mpr h1
  have hne : (params.number_of_simulations : ℝ) ≠ 0 := by
    exact_mod_cast Nat.one_le_iff_ne_zero.mp hn
  simp only [calculateMonteCarlo, hdays, mcSimLoop_zero_days]
  have hcancel : (params.number_of_simulations : ℝ) *
      mcPayoff params params.underlying_price / (params.number_of_simulations : ℝ) =
      mcPayoff params params.underlying_price := by
    field_simp
  rw [hcancel]
  rfl

/-- Witness for C9 at one simulation, `T = 1/730` (half a day), `r = 0`,
`S = 100`, `K = 90`, Call, constant draw stream. -/
theorem calculateMonteCarlo_zero_days_witness :
    calculateMonteCarlo ⟨1, 0, 100, 90, 1 / 730, 0.3, OptionType.Call, 5⟩ (fun _ => 1 / 2) =
      max ((100 : ℝ) - 90) 0 * Real.exp (-(0 : ℝ) * (1 / 730)) :=
  calculateMonteCarlo_zero_days ⟨1, 0, 100, 90, 1 / 730, 0.3, OptionType.Call, 5⟩
    (fun _ => 1 / 2) (by norm_num) (by norm_num) (by norm_num)

/-- The `Option` class of the source (named `OptionContract` here because
`Option` is taken by the Lean prelude), fields `strike_`, `premium_`,
`option_type_`. -/
structure OptionContract where
  strike_ : ℝ
  premium_ : ℝ
  option_type_ : OptionType

/-- Source `Option::calculatePayoff` from `options.cpp`: an `if` on Call with the
Put formula on the fall-through return. -/
noncomputable def OptionContract.calculatePayoff (o : OptionContract)
    (spotPrice : ℝ) : ℝ :=
  if o.option_type_ = OptionType.Call then max (spotPrice - o.strike_) 0 - o.premium_
  else max (o.strike_ - spotPrice) 0 - o.premium_

/-- C7: `calculatePayoff` is total and returns `max(spot − strike, 0) −
premium` for a Call and `max(strike − spot, 0) − premium` for a Put; in
particular the spec's three concrete examples hold. -/
theorem calculatePayoff_spec :
    (∀ (o : OptionContract) (spot : ℝ),
        o.calculatePayoff spot =
          match o.option_type_ with
          | OptionType.Call => max (spot - o.strike_) 0 - o.premium_
          | OptionType.Put => max (o.strike_ - spot) 0 - o.premium_) ∧
      OptionContract.calculatePayoff ⟨100, 5, OptionType.Call⟩ 120 = 15 ∧
      OptionContract.calculatePayoff ⟨100, 5, OptionType.Put⟩ 80 = 15 ∧
      ∀ (strike premium : ℝ) (ty : OptionType),
        OptionContract.calculatePayoff ⟨strike, premium, ty⟩ strike = -premium := by
  refine ⟨fun o spot => ?_, ?_, ?_, fun strike premium ty => ?_⟩
  · obtain ⟨s, p, ty⟩ := o
    cases ty <;> simp [OptionContract.calculatePayoff]
  · norm_num [OptionContract.calculatePayoff]
  · norm_num [OptionContract.calculatePayoff]
    decide
  · cases ty <;> simp [OptionContract.calculatePayoff]

/-- Source `RandomGenerator<double>` from the header: just the two bounds the
constructor passes to `std::uniform_real_distribution<double>`. -/
structure RandomGenerator where
  lo : ℝ
  hi : ℝ

/-- The `RandomGenerator` constructor:
`distribution(std::min(left_limit, right_limit), std::max(left_limit, right_limit))`. -/
noncomputable def RandomGenerator.construct (left_limit right_limit : ℝ) :
    RandomGenerator :=
  ⟨min left_limit right_limit, max left_limit right_limit⟩

/-- The set of values `getRandomValue()` can return.  Per the C++ standard's
contract for `std::uniform_real_distribution(a, b)` — an external library
component, embedded by its documented contract — every produced value lies
in the half-open interval `[a, b)`, the closed-or-half-open interval the
spec's §4.2 names for a floating element type. -/
noncomputable def RandomGenerator.support (g : RandomGenerator) : Set ℝ :=
  Set.Ico g.lo g.hi

/-- Counterexample to C6: `0` is a producible value of the Monte Carlo
evaluator's `RandomGenerator<double>(0.0, 1.0)`, and `0` does not lie in the
open interval `(0,1)` — so a draw `u1 = 0` (where `ln(u1)` diverges) is not
excluded. -/
theorem mc_uniform_sample_zero_producible :
    (0 : ℝ) ∈ (RandomGenerator.construct 0 1).support ∧
      (0 : ℝ) ∉ Set.Ioo (0 : ℝ) 1 := by
  constructor
  · constructor <;> norm_num [RandomGenerator.construct, RandomGenerator.support]
  · simp

/-- C6 amended: every uniform sample drawn during a `calculateMonteCarlo`
evaluation from the source constructed with bounds `0.0` and `1.0` lies in
the half-open interval `[0,1)`; in particular every sample is strictly below
`1`, but `0` itself is not excluded. -/
theorem mc_uniform_sample_mem_Ico (x : ℝ)
    (hx : x ∈ (RandomGenerator.construct 0 1).support) :
    x ∈ Set.Ico (0 : ℝ) 1 := by
  simpa [RandomGenerator.construct, RandomGenerator.support] using hx

/-- Witness for the amended C6 at the sample `1/2`. -/
theorem mc_uniform_sample_mem_Ico_witness : (1 / 2 : ℝ) ∈ Set.Ico (0 : ℝ) 1 :=
  mc_uniform_sample_mem_Ico (1 / 2)
    (by constructor <;> norm_num [RandomGenerator.construct, RandomGenerator.support])

/-- C8: constructing the uniform random source is order-independent in its
two bounds — the constructor takes min and max — and every producible value
lies in the corresponding half-open interval `[min a b, max a b)`. -/
theorem randomGenerator_construct_comm (a b : ℝ) :
    RandomGenerator.construct a b = RandomGenerator.construct b a ∧
      ∀ x ∈ (RandomGenerator.construct a b).support, min a b ≤ x ∧ x < max a b := by
  constructor
  · simp [RandomGenerator.construct, min_comm, max_comm]
  · intro x hx
    simpa [RandomGenerator.construct, RandomGenerator.support] using hx

/-- Witness for C8 at bounds `3, 1` and the sample `2`. -/
theorem randomGenerator_construct_comm_witness :
    RandomGenerator.construct 3 1 = RandomGenerator.construct 1 3 ∧
      min (3 : ℝ) 1 ≤ 2 ∧ (2 : ℝ) < max (3 : ℝ) 1 :=
  ⟨(randomGenerator_construct_comm 3 1).1,
    (randomGenerator_construct_comm 3 1).2 2
      (by constructor <;> norm_num [RandomGenerator.construct, RandomGenerator.support])⟩

/-- The Monte Carlo day loop never reads `paid_price`. -/
theorem mcDayLoop_paid_price (p : MonteCarloParams) (x : ℝ) (u : ℕ → ℝ)
    (time_step : ℝ) (start d : ℕ) :
    mcDayLoop { p with paid_price := x } u time_step start d =
      mcDayLoop p u time_step start d := by
  induction d with
  | zero => rfl
  | succ d ih =>
      simp only [mcDayLoop, ih]
      rfl

/-- The Monte Carlo simulation loop never reads `paid_price`. -/
theorem mcSimLoop_paid_price (p : MonteCarloParams) (x : ℝ) (u : ℕ → ℝ)
    (time_step : ℝ) (total_days n : ℕ) :
    mcSimLoop { p with paid_price := x } u time_step total_days n =
      mcSimLoop p u time_step total_days n := by
  induction n with
  | zero => rfl
  | succ n ih =>
      simp only [mcSimLoop, ih, mcDayLoop_paid_price]
      rfl

/-- C10: the three evaluators are independent of the `paid_price` field —
two calls whose parameter bundles differ only in `paid_price` (and, for the
Monte Carlo evaluator, see the same stream of random draws) return the same
result. -/
theorem paid_price_irrelevant :
    (∀ (p : BlackScholesParams) (x : ℝ),
        calculateBlackScholes { p with paid_price := x } = calculateBlackScholes p) ∧
      (∀ (p : GreeksParams) (x : ℝ) (g : Greeks),
        calculateGreeks { p with paid_price := x } g = calculateGreeks p g) ∧
      ∀ (p : MonteCarloParams) (x : ℝ) (u : ℕ → ℝ),
        calculateMonteCarlo { p with paid_price := x } u = calculateMonteCarlo p u := by
  refine ⟨fun p x => rfl, fun p x g => rfl, fun p x u => ?_⟩
  simp only [calculateMonteCarlo, mcSimLoop_paid_price]
